import Mathlib

/-!
Verification of the bxCAN driver core (eoos-driver-can-if-stm32f103xx).

This file shallowly embeds the driver's data model and operations in Lean 4
and proves properties about them.  All numeric registers and bit fields are
modelled as `Nat` with explicit truncation (`% 2 ^ w`) where the C++
bit-field assignment truncates.  One-bit hardware fields hold `0` or `1` and
are compared with `= 1` exactly where the source compares `== 1`.

Sources embedded:
  - `drv.Can.hpp` (public): `Can::Id`, `Can::Message`, `operator==`, `operator!=`,
    `Can::Config`, `Can::RxFilter`.
  - `drv.CanResource.hpp` (complete revision): `initialize`, `setBitRate`.
  - `drv.CanResourceTx.cpp`: `CanResourceTx::transmit`.
  - `drv.CanResourceTxMailbox.cpp`: `transmit`, `isEmpty`, `routine`,
    `fixRequestStatus`, `isFixedRequestCompleted`, `clearRequestStatus`.
  - `drv.CanResourceRxFifo.cpp`: `receive`, `start` (the RX-FIFO ISR body).
  - `drv.CanResourceRx.cpp`: `receive` dispatch, `setReceiveFilter`.

External collaborators that are not part of this repository's `src/`
(the generic `lib::Fifo` container, the kernel `sys::Semaphore`, the
`lib::Register` read-modify-write window, and the BTR bit layout of
`cpu.Registers.hpp`) are modelled from the specification; each such
definition carries a doc comment starting with `Modelled from the spec:`.
-/

namespace CanDrv

/-- `Can::Id` from `drv.Can.hpp`: bit fields `exid : 18` and `stid : 11`.
The fields hold the stored (already truncated) bit-field values. -/
structure Id where
  exid : Nat
  stid : Nat
  deriving Repr, DecidableEq

/-- `Can::Message` from `drv.Can.hpp`.  `data` is the 64-bit payload word
`data.v64[0]`; the union views are derived (`v32[0] = data % 2^32`,
`v32[1] = data / 2^32` on this little-endian target). -/
structure Message where
  id : Id
  rtr : Bool
  ide : Bool
  dlc : Nat
  data : Nat
  deriving Repr, DecidableEq

/-- `message.data.v32[0]`: low 32-bit word of the payload union. -/
def Message.v32lo (m : Message) : Nat := m.data % 2 ^ 32

/-- `message.data.v32[1]`: high 32-bit word of the payload union. -/
def Message.v32hi (m : Message) : Nat := m.data / 2 ^ 32

/-- `Can::Id::operator==` from `drv.Can.hpp`. -/
def idEq (a b : Id) : Bool :=
  a.exid == b.exid && a.stid == b.stid

/-- `Can::Message::operator==` from `drv.Can.hpp`: compares `id`, `rtr`,
`ide`, `dlc` and the full 64-bit payload word `data.v64[0]`. -/
def messageEq (a b : Message) : Bool :=
  idEq a.id b.id && a.rtr == b.rtr && a.ide == b.ide && a.dlc == b.dlc
    && a.data == b.data

/-- `Can::Message::operator!=` from `drv.Can.hpp`. -/
def messageNe (a b : Message) : Bool :=
  !(messageEq a b)

/-- C9: `Message` equality is structural over `id.stid`, `id.exid`, `rtr`,
`ide`, `dlc` and the full 64-bit payload word (all 8 bytes, regardless of
the declared DLC), and `!=` holds exactly when `==` does not. -/
theorem message_eq_characterisation (a b : Message) :
    (messageEq a b = true ↔
      (a.id.stid = b.id.stid ∧ a.id.exid = b.id.exid ∧ a.rtr = b.rtr
        ∧ a.ide = b.ide ∧ a.dlc = b.dlc ∧ a.data = b.data))
    ∧ (messageNe a b = true ↔ ¬ (messageEq a b = true)) := by
  constructor
  · simp only [messageEq, idEq, Bool.and_eq_true, beq_iff_eq]
    tauto
  · simp [messageNe]

/-- `Can::Reg::Mcr` from `drv.Can.hpp`: the MCR options block of the
caller-supplied config.  Each field is a 1-bit bit field. -/
structure CfgMcr where
  txfp : Nat
  rflm : Nat
  nart : Nat
  awum : Nat
  abom : Nat
  ttcm : Nat
  dbf : Nat
  deriving Repr, DecidableEq

/-- `Can::Reg::Btr` from `drv.Can.hpp`: the BTR options block of the config. -/
structure CfgBtr where
  lbkm : Nat
  silm : Nat
  deriving Repr, DecidableEq

/-- `Can::Reg` from `drv.Can.hpp`. -/
structure CfgReg where
  mcr : CfgMcr
  btr : CfgBtr
  deriving Repr, DecidableEq

/-- `Can::Config` from `drv.Can.hpp`: `number` is the `Number` enum value
(`NUMBER_CAN1 = 0`), `bitRate` one of the nine `BitRate` enumerators and
`samplePoint` one of the two `SamplePoint` enumerators. -/
structure Config where
  number : Nat
  bitRate : Fin 9
  samplePoint : Fin 2
  reg : CfgReg
  deriving Repr, DecidableEq

/-- The CAN master control register `MCR` (fields used by the driver). -/
structure Mcr where
  sleep : Nat
  inrq : Nat
  txfp : Nat
  rflm : Nat
  nart : Nat
  awum : Nat
  abom : Nat
  ttcm : Nat
  dbf : Nat
  deriving Repr, DecidableEq

/-- The CAN bit timing register `BTR` (fields used by the driver). -/
structure Btr where
  brp : Nat
  ts1 : Nat
  ts2 : Nat
  sjw : Nat
  lbkm : Nat
  silm : Nat
  deriving Repr, DecidableEq

/-- The CAN interrupt enable register `IER` (fields used by the driver). -/
structure Ier where
  tmeie : Nat
  fmpie0 : Nat
  ffie0 : Nat
  fovie0 : Nat
  fmpie1 : Nat
  ffie1 : Nat
  fovie1 : Nat
  ewgie : Nat
  epvie : Nat
  bofie : Nat
  lecie : Nat
  errie : Nat
  wkuie : Nat
  slkie : Nat
  deriving Repr, DecidableEq

/-- The `DBG.CR` register (field used by the driver). -/
structure DbgCr where
  dbgcan1stop : Nat
  deriving Repr, DecidableEq

/-- The registers touched by `CanResource::initialize` (RCC clock gating and
GPIO port writes are outside this record; no claim concerns them). -/
structure CanRegs where
  mcr : Mcr
  btr : Btr
  ier : Ier
  dbgcr : DbgCr
  deriving Repr, DecidableEq

/-- The bounded INAK polling loop of `CanResource::initialize`
(`drv.CanResource.hpp`, complete revision):

    while( true )
    \x7b  if( msr.fetch().bit().inak == expected ) break;
       if( timeout-- == 0 ) break;  \x7d

`inak i` is the value `MSR.INAK == expected` reads at the `i`-th poll.
Returns the value the `uint32_t timeout` variable holds after the loop:
the check `timeout-- == 0` uses the post-decrement value, so when the
countdown expires the variable wraps to `2 ^ 32 - 1`. -/
def inakWaitAux (inak : Nat → Bool) (i t : Nat) : Nat :=
  if inak i then t
  else
    match t with
    | 0 => 2 ^ 32 - 1
    | Nat.succ u => inakWaitAux inak (i + 1) u

/-- The wait loop entered with `timeout = 0x0000FFFF` as in the source. -/
def inakWait (inak : Nat → Bool) : Nat :=
  inakWaitAux inak 0 0xFFFF

/-- The constant 2x9 bit-timing lookup table of `CanResource::setBitRate`
(`drv.CanResource.hpp`, complete revision), row 0 CANopen, row 1 ARINC 825. -/
def bitRateValue : Fin 2 → Fin 9 → Nat :=
  ![![0x001e0001, 0x001b0002, 0x001e0003, 0x001c0008, 0x001c0011,
      0x001e0013, 0x001c002c, 0x001e0063, 0x001c00e0],
    ![0x003c0001, 0x00390002, 0x003c0003, 0x003a0008, 0x003a0011,
      0x004d0011, 0x004d0023, 0x004d0059, 0x003a00e0]]

/-- Modelled from the spec: the `cpu::reg::Can::Btr` bit layout of
`cpu.Registers.hpp` is not under `src/`; field widths are the spec's
`BRP(10), TS1(4), TS2(3), SJW(2)` and the positions are the chip
reference layout the spec defers to (BRP at bit 0, TS1 at 16, TS2 at 20,
SJW at 24).  `btrFieldBrp v` extracts `BRP` from a packed 32-bit word. -/
def btrFieldBrp (v : Nat) : Nat := v % 2 ^ 10

/-- Modelled from the spec: `TS1` field (4 bits at bit 16) of a packed BTR word. -/
def btrFieldTs1 (v : Nat) : Nat := v / 2 ^ 16 % 2 ^ 4

/-- Modelled from the spec: `TS2` field (3 bits at bit 20) of a packed BTR word. -/
def btrFieldTs2 (v : Nat) : Nat := v / 2 ^ 20 % 2 ^ 3

/-- Modelled from the spec: `SJW` field (2 bits at bit 24) of a packed BTR word. -/
def btrFieldSjw (v : Nat) : Nat := v / 2 ^ 24 % 2 ^ 2

/-- `CanResource::setBitRate` (`drv.CanResource.hpp`, complete revision):
reads the packed entry `value[samplePoint][bitRate]`, then programs
`BTR.BRP`, `BTR.TS1`, `BTR.TS2` and `BTR.SJW` from its fields by
read-modify-write; always returns true. -/
def setBitRate (cfg : Config) (r : CanRegs) : Bool × CanRegs :=
  let v := bitRateValue cfg.samplePoint cfg.bitRate
  (true,
    { r with
      btr :=
        { r.btr with
          brp := btrFieldBrp v
          ts1 := btrFieldTs1 v
          ts2 := btrFieldTs2 v
          sjw := btrFieldSjw v } })

/-- The MCR options write of `CanResource::initialize`
(`drv.CanResource.hpp`, complete revision, the block after the first INAK
wait): `txfp`, `rflm` and `dbf` are copied from the config, while `nart`,
`awum`, `abom` and `ttcm` are written as the constant 0.  The 1-bit
bit-field assignment truncates with `% 2`. -/
def mcrOptionsWrite (cfg : Config) (m : Mcr) : Mcr :=
  { m with
    txfp := cfg.reg.mcr.txfp % 2
    rflm := cfg.reg.mcr.rflm % 2
    nart := 0
    awum := 0
    abom := 0
    ttcm := 0
    dbf := cfg.reg.mcr.dbf % 2 }

/-- The IER enable write of `CanResource::initialize`: every listed
interrupt enable bit is set to 1. -/
def ierEnableWrite : Ier :=
  { tmeie := 1, fmpie0 := 1, ffie0 := 1, fovie0 := 1, fmpie1 := 1,
    ffie1 := 1, fovie1 := 1, ewgie := 1, epvie := 1, bofie := 1,
    lecie := 1, errie := 1, wkuie := 1, slkie := 1 }

/-- `CanResource::initialize` (`drv.CanResource.hpp`, complete revision).
`clockOk` is the result of `checkClocks()`; `inakUp i` is the value of
`MSR.INAK == 1` at the `i`-th poll of the enter-init wait and `inakDown i`
the value of `MSR.INAK == 0` at the `i`-th poll of the exit-init wait.
Returns the `bool_t` result together with the register state when the
function returns. -/
def canInit (cfg : Config) (clockOk : Bool) (inakUp inakDown : Nat → Bool)
    (r0 : CanRegs) : Bool × CanRegs :=
  if !clockOk then (false, r0)
  else if cfg.number != 0 then (false, r0)
  else
    let r1 : CanRegs := { r0 with mcr := { r0.mcr with sleep := 0 } }
    let r2 : CanRegs := { r1 with mcr := { r1.mcr with inrq := 1 } }
    let t1 := inakWait inakUp
    if t1 = 0 then (false, r2)
    else
      let r3 : CanRegs := { r2 with mcr := mcrOptionsWrite cfg r2.mcr }
      let r4 : CanRegs :=
        if cfg.reg.mcr.dbf = 1 then { r3 with dbgcr := { dbgcan1stop := 1 } }
        else r3
      let r5 : CanRegs :=
        { r4 with
          btr :=
            { r4.btr with
              lbkm := cfg.reg.btr.lbkm % 2
              silm := cfg.reg.btr.silm % 2 } }
      let p := setBitRate cfg r5
      if !p.fst then (false, p.snd)
      else
        let r7 : CanRegs := { p.snd with mcr := { p.snd.mcr with inrq := 0 } }
        let t2 := inakWait inakDown
        if t2 = 0 then (false, r7)
        else (true, { r7 with ier := ierEnableWrite })

/-- The spec's CANopen row and ARINC 825 row of the bit-timing table,
transcribed from the spec text (section 4.6) for comparison with the
source table `bitRateValue`. -/
def specBitRateValue : Fin 2 → Fin 9 → Nat :=
  ![![0x001e0001, 0x001b0002, 0x001e0003, 0x001c0008, 0x001c0011,
      0x001e0013, 0x001c002c, 0x001e0063, 0x001c00e0],
    ![0x003c0001, 0x00390002, 0x003c0003, 0x003a0008, 0x003a0011,
      0x004d0011, 0x004d0023, 0x004d0059, 0x003a00e0]]

/-- The source lookup table coincides with the spec's two rows. -/
lemma bitRateValue_eq_spec :
    ∀ sp : Fin 2, ∀ br : Fin 9, bitRateValue sp br = specBitRateValue sp br := by
  decide

/-- If the INAK check fails at every poll, the wait loop runs the countdown
to expiry and leaves the wrapped value `2 ^ 32 - 1` in `timeout`. -/
lemma inakWaitAux_const_false (inak : Nat → Bool) (h : ∀ k, inak k = false) :
    ∀ t i : Nat, inakWaitAux inak i t = 2 ^ 32 - 1 := by
  intro t
  induction t with
  | zero =>
    intro i
    simp [inakWaitAux, h]
  | succ u ih =>
    intro i
    simp [inakWaitAux, h, ih]

/-- If the INAK check succeeds at the first poll, the wait loop exits at
once with `timeout` untouched. -/
lemma inakWaitAux_first_true (inak : Nat → Bool) (i t : Nat)
    (h : inak i = true) : inakWaitAux inak i t = t := by
  cases t <;> simp [inakWaitAux, h]

/-- An all-zero register state (the concrete state used by evaluations). -/
def regsZero : CanRegs :=
  { mcr := { sleep := 0, inrq := 0, txfp := 0, rflm := 0, nart := 0,
             awum := 0, abom := 0, ttcm := 0, dbf := 0 }
    btr := { brp := 0, ts1 := 0, ts2 := 0, sjw := 0, lbkm := 0, silm := 0 }
    ier := { tmeie := 0, fmpie0 := 0, ffie0 := 0, fovie0 := 0, fmpie1 := 0,
             ffie1 := 0, fovie1 := 0, ewgie := 0, epvie := 0, bofie := 0,
             lecie := 0, errie := 0, wkuie := 0, slkie := 0 }
    dbgcr := { dbgcan1stop := 0 } }

/-- A concrete valid configuration: CAN1, 500 kbit/s, CANopen sample
point, all MCR/BTR option bits 0. -/
def cfgBasic : Config :=
  { number := 0
    bitRate := ⟨2, by decide⟩
    samplePoint := ⟨0, by decide⟩
    reg := { mcr := { txfp := 0, rflm := 0, nart := 0, awum := 0, abom := 0,
                      ttcm := 0, dbf := 0 }
             btr := { lbkm := 0, silm := 0 } } }

/-- `cfgBasic` with `abom = 1` requested in the config. -/
def cfgAbom : Config :=
  { cfgBasic with
    reg := { cfgBasic.reg with
             mcr := { cfgBasic.reg.mcr with abom := 1 } } }

/-- C1: evaluation of `CanResource::initialize` at the failing input where
`MSR.INAK` never asserts within the 0xFFFF-iteration budget of the
enter-init wait (`inakUp` is constantly false) while the exit-init check
passes immediately (INAK is physically stuck at 0, so `INAK == 0` holds).
The countdown expires, `timeout--` wraps the `uint32_t` to `0xFFFFFFFF`,
the `if( timeout == 0 )` failure check is not taken, and the function
returns true instead of failing construction as the spec requires. -/
theorem canInit_timeout_expiry_succeeds :
    (canInit cfgBasic true (fun _ => false) (fun _ => true) regsZero).fst
      = true := by
  have h1 : inakWait (fun _ => false) = 2 ^ 32 - 1 :=
    inakWaitAux_const_false _ (fun _ => rfl) _ _
  have h2 : inakWait (fun _ => true) = 0xFFFF :=
    inakWaitAux_first_true _ _ _ rfl
  simp [canInit, h1, h2, setBitRate, cfgBasic]

/-- C2 counterexample: for the concrete config requesting `abom = 1`, a
successful run of `CanResource::initialize` programs the hardware ABOM
bit to 0, because the MCR options write hard-codes
`nart = awum = abom = ttcm = 0` and copies only `txfp`, `rflm` and `dbf`
from the config. -/
theorem canInit_abom_not_from_config :
    cfgAbom.reg.mcr.abom = 1
    ∧ (canInit cfgAbom true (fun _ => true) (fun _ => true) regsZero).fst
        = true
    ∧ ((canInit cfgAbom true (fun _ => true) (fun _ => true)
          regsZero).snd).mcr.abom = 0 := by
  have h2 : inakWait (fun _ => true) = 0xFFFF :=
    inakWaitAux_first_true _ _ _ rfl
  refine ⟨rfl, ?_, ?_⟩ <;>
    simp [canInit, h2, setBitRate, mcrOptionsWrite, cfgAbom, cfgBasic]

/-- C2 amended: in every return path of `CanResource::initialize` after the
enter-init wait succeeds, the MCR word carries `txfp`, `rflm` and `dbf`
from the caller-supplied config, while `nart`, `awum`, `abom` and `ttcm`
are programmed to 0 regardless of the config. -/
theorem canInit_mcr_options (cfg : Config) (up down : Nat → Bool)
    (r0 : CanRegs) (h1 : inakWait up ≠ 0) (hn : cfg.number = 0)
    (htx : cfg.reg.mcr.txfp ≤ 1) (hrf : cfg.reg.mcr.rflm ≤ 1)
    (hdb : cfg.reg.mcr.dbf ≤ 1) :
    ((canInit cfg true up down r0).snd).mcr.txfp = cfg.reg.mcr.txfp
    ∧ ((canInit cfg true up down r0).snd).mcr.rflm = cfg.reg.mcr.rflm
    ∧ ((canInit cfg true up down r0).snd).mcr.dbf = cfg.reg.mcr.dbf
    ∧ ((canInit cfg true up down r0).snd).mcr.nart = 0
    ∧ ((canInit cfg true up down r0).snd).mcr.awum = 0
    ∧ ((canInit cfg true up down r0).snd).mcr.abom = 0
    ∧ ((canInit cfg true up down r0).snd).mcr.ttcm = 0 := by
  have etx : cfg.reg.mcr.txfp % 2 = cfg.reg.mcr.txfp :=
    Nat.mod_eq_of_lt (by omega)
  have erf : cfg.reg.mcr.rflm % 2 = cfg.reg.mcr.rflm :=
    Nat.mod_eq_of_lt (by omega)
  have edb : cfg.reg.mcr.dbf % 2 = cfg.reg.mcr.dbf :=
    Nat.mod_eq_of_lt (by omega)
  simp only [canInit, hn, setBitRate, mcrOptionsWrite]
  split <;> simp_all [etx, erf, edb] <;> split <;> simp_all <;>
    split <;> simp_all

/-- C2 witness: the amended statement applied to the concrete `cfgAbom`. -/
theorem canInit_mcr_options_witness :
    ((canInit cfgAbom true (fun _ => true) (fun _ => true)
        regsZero).snd).mcr.txfp = cfgAbom.reg.mcr.txfp
    ∧ ((canInit cfgAbom true (fun _ => true) (fun _ => true)
        regsZero).snd).mcr.rflm = cfgAbom.reg.mcr.rflm
    ∧ ((canInit cfgAbom true (fun _ => true) (fun _ => true)
        regsZero).snd).mcr.dbf = cfgAbom.reg.mcr.dbf
    ∧ ((canInit cfgAbom true (fun _ => true) (fun _ => true)
        regsZero).snd).mcr.nart = 0
    ∧ ((canInit cfgAbom true (fun _ => true) (fun _ => true)
        regsZero).snd).mcr.awum = 0
    ∧ ((canInit cfgAbom true (fun _ => true) (fun _ => true)
        regsZero).snd).mcr.abom = 0
    ∧ ((canInit cfgAbom true (fun _ => true) (fun _ => true)
        regsZero).snd).mcr.ttcm = 0 :=
  canInit_mcr_options cfgAbom (fun _ => true) (fun _ => true) regsZero
    (by
      have h2 : inakWait (fun _ => true) = 0xFFFF :=
        inakWaitAux_first_true _ _ _ rfl
      simp [h2])
    rfl (by decide) (by decide) (by decide)

/-- C8: the bit-timing lookup table is exactly the spec's two 9-entry rows,
and `setBitRate` programs `BTR.BRP`, `BTR.TS1`, `BTR.TS2` and `BTR.SJW`
from the fields of entry `[samplePoint][bitRate]` of that table, returning
true for every config. -/
theorem setBitRate_programs_table (cfg : Config) (r : CanRegs) :
    (∀ sp : Fin 2, ∀ br : Fin 9, bitRateValue sp br = specBitRateValue sp br)
    ∧ (setBitRate cfg r).snd.btr.brp
        = btrFieldBrp (specBitRateValue cfg.samplePoint cfg.bitRate)
    ∧ (setBitRate cfg r).snd.btr.ts1
        = btrFieldTs1 (specBitRateValue cfg.samplePoint cfg.bitRate)
    ∧ (setBitRate cfg r).snd.btr.ts2
        = btrFieldTs2 (specBitRateValue cfg.samplePoint cfg.bitRate)
    ∧ (setBitRate cfg r).snd.btr.sjw
        = btrFieldSjw (specBitRateValue cfg.samplePoint cfg.bitRate)
    ∧ (setBitRate cfg r).fst = true := by
  have h := bitRateValue_eq_spec cfg.samplePoint cfg.bitRate
  exact ⟨bitRateValue_eq_spec, by simp [setBitRate, h], by simp [setBitRate, h],
    by simp [setBitRate, h], by simp [setBitRate, h], rfl⟩

/-- The transmit status register `TSR` (fields used by the driver); each
field is a 1-bit hardware flag. -/
structure Tsr where
  tme0 : Nat
  tme1 : Nat
  tme2 : Nat
  rqcp0 : Nat
  rqcp1 : Nat
  rqcp2 : Nat
  txok0 : Nat
  txok1 : Nat
  txok2 : Nat
  alst0 : Nat
  alst1 : Nat
  alst2 : Nat
  terr0 : Nat
  terr1 : Nat
  terr2 : Nat
  deriving Repr, DecidableEq

/-- `TSR.TME[i]`. -/
def tsrTme (t : Tsr) : Fin 3 → Nat := ![t.tme0, t.tme1, t.tme2]

/-- `TSR.RQCP[i]`. -/
def tsrRqcp (t : Tsr) : Fin 3 → Nat := ![t.rqcp0, t.rqcp1, t.rqcp2]

/-- `TSR.TXOK[i]`. -/
def tsrTxok (t : Tsr) : Fin 3 → Nat := ![t.txok0, t.txok1, t.txok2]

/-- `TSR.ALST[i]`. -/
def tsrAlst (t : Tsr) : Fin 3 → Nat := ![t.alst0, t.alst1, t.alst2]

/-- `TSR.TERR[i]`. -/
def tsrTerr (t : Tsr) : Fin 3 → Nat := ![t.terr0, t.terr1, t.terr2]

/-- The all-zero TSR word. -/
def tsrZero : Tsr :=
  { tme0 := 0, tme1 := 0, tme2 := 0, rqcp0 := 0, rqcp1 := 0, rqcp2 := 0,
    txok0 := 0, txok1 := 0, txok2 := 0, alst0 := 0, alst1 := 0, alst2 := 0,
    terr0 := 0, terr1 := 0, terr2 := 0 }

/-- `CanResourceTxMailbox::RequestStatus` (`drv.CanResourceTxMailbox.hpp`):
the captured per-mailbox snapshot. -/
structure RequestStatus where
  rqcp : Nat
  txok : Nat
  alst : Nat
  terr : Nat
  tme : Nat
  deriving Repr, DecidableEq

/-- `CanResourceTxMailbox::fixRequestStatus`
(`drv.CanResourceMailboxRoutine.cpp`): copies the five per-mailbox TSR
flags of mailbox `i` into the snapshot (the `default` switch case is
unreachable for the three constructed mailboxes, whose indices are
0, 1 and 2). -/
def fixRequestStatus (t : Tsr) (i : Fin 3) : RequestStatus :=
  { rqcp := tsrRqcp t i, txok := tsrTxok t i, alst := tsrAlst t i,
    terr := tsrTerr t i, tme := tsrTme t i }

/-- `ERROR_COUNTER_LIMIT` of `CanResourceTxMailbox::isFixedRequestCompleted`. -/
def errorCounterLimit : Nat := 0x20000000

/-- `CanResourceTxMailbox::isFixedRequestCompleted`
(`drv.CanResourceMailboxRoutine.cpp`): returns whether the fixed snapshot
shows a newly-completed request (`rqcp == 1 && tme == 1`) and the updated
`errorCounter_` value (incremented when the completed request has
`txok == 0`, only while below `ERROR_COUNTER_LIMIT`). -/
def isFixedRequestCompleted (rs : RequestStatus) (ec : Nat) : Bool × Nat :=
  let isTransmited := rs.rqcp == 1 && rs.tme == 1
  let ec' :=
    if isTransmited && rs.txok == 0 then
      if ec < errorCounterLimit then ec + 1 else ec
    else ec
  (isTransmited, ec')

/-- `CanResourceTxMailbox::clearRequestStatus`
(`drv.CanResourceMailboxRoutine.cpp`): stores `RQCPi_MASK` into the whole
`TSR` word, i.e. a word with 1 in `RQCP[i]` and 0 elsewhere (the flag is
write-1-to-clear). -/
def clearRequestStatus (i : Fin 3) : Tsr :=
  ![{ tsrZero with rqcp0 := 1 }, { tsrZero with rqcp1 := 1 },
    { tsrZero with rqcp2 := 1 }] i

/-- `CanResourceTxMailbox::routine` (`drv.CanResourceMailboxRoutine.cpp`)
for a constructed mailbox of index `i` and current error counter `ec`:
returns the `bool_t` result, the new error counter, and the TSR word
written when the status is cleared (`none` when nothing is written). -/
def txMailboxRoutine (t : Tsr) (i : Fin 3) (ec : Nat) :
    Bool × Nat × Option Tsr :=
  let rs := fixRequestStatus t i
  let p := isFixedRequestCompleted rs ec
  if p.fst then (true, p.snd, some (clearRequestStatus i))
  else (false, p.snd, none)

/-- The TX mailbox identifier register `TIxR` (fields used by the driver). -/
structure TiXr where
  txrq : Nat
  rtr : Nat
  ide : Nat
  exid : Nat
  stid : Nat
  deriving Repr, DecidableEq

/-- One TX mailbox's registers: `TIxR`, `TDTxR.DLC`, `TDLxR`, `TDHxR`. -/
structure TxMailboxRegs where
  tixr : TiXr
  dlc : Nat
  tdl : Nat
  tdh : Nat
  deriving Repr, DecidableEq

/-- `CanResourceTxMailbox::isEmpty` (`drv.CanResourceMailboxRoutine.cpp`):
reads `TSR.TME[i]` and compares with 1. -/
def txMailboxIsEmpty (t : Tsr) (i : Fin 3) : Bool :=
  tsrTme t i == 1

/-- `CanResourceTxMailbox::transmit` (`drv.CanResourceMailboxRoutine.cpp`)
for a constructed mailbox of index `i`: when `TME[i] == 1`, encodes the
message into the mailbox registers (base frame: `stid` from `id.stid`,
`exid` and `ide` cleared; extended frame: `stid` from `id.stid`, `exid`
from `id.exid`, `ide` set; `rtr` mirrored; DLC and the two payload words
copied) and leaves `TXRQ` raised; otherwise returns false and writes
nothing.  Bit-field assignments truncate to the field width (`stid` 11
bits, `exid` 18 bits, DLC 4 bits per the chip layout). -/
def txMailboxTransmit (t : Tsr) (i : Fin 3) (mb : TxMailboxRegs)
    (m : Message) : Bool × TxMailboxRegs :=
  if txMailboxIsEmpty t i then
    (true,
      { tixr :=
          { txrq := 1
            rtr := if m.rtr then 1 else 0
            ide := if m.ide then 1 else 0
            exid := if m.ide then m.id.exid % 2 ^ 18 else 0
            stid := m.id.stid % 2 ^ 11 }
        dlc := m.dlc % 2 ^ 4
        tdl := m.v32lo
        tdh := m.v32hi })
  else (false, mb)

/-- The identifier value of a message as the spec's encoding rules denote
it: the 29-bit value `stid << 18 | exid` for an extended frame, the
11-bit `stid` for a base frame. -/
def canId (m : Message) : Nat :=
  if m.ide then m.id.stid * 2 ^ 18 + m.id.exid else m.id.stid

/-- `NUMBER_OF_TX_MAILBOXS` (`drv.CanResourceTxMailbox.hpp`); the TX
mailbox semaphore `mailboxSem_` is created with this value as both its
initial and maximum permit count. -/
def numberOfTxMailboxs : Nat := 3

/-- The mailbox scan of `CanResourceTx::transmit`
(`drv.CanResourceTx.cpp`): the loop `for i in 0..2` breaks at the first
mailbox with `isEmpty()`. -/
def firstEmptyMailbox (t : Tsr) : Option (Fin 3) :=
  if txMailboxIsEmpty t 0 then some 0
  else if txMailboxIsEmpty t 1 then some 1
  else if txMailboxIsEmpty t 2 then some 2
  else none

/-- The TxEngine state visible to `CanResourceTx::transmit`: the counting
semaphore value (0..3 permits of `mailboxSem_`) and the registers. -/
structure TxEngineState where
  sem : Nat
  tsr : Tsr
  mb : Fin 3 → TxMailboxRegs

/-- `CanResourceTx::transmit` (`drv.CanResourceTx.cpp`) on a constructed
resource, modelled from the point where `mailboxSem_.acquire()` returns
(the caller blocks until a permit is available, so `s.sem` must be
positive): one permit is consumed, the mutex is held for the scan, the
first empty mailbox receives the frame, and the result is that mailbox's
`transmit` result; nothing ever releases the permit back. -/
def canResourceTxTransmit (s : TxEngineState) (m : Message) :
    Bool × TxEngineState :=
  let s1 : TxEngineState := { s with sem := s.sem - 1 }
  match firstEmptyMailbox s.tsr with
  | some i =>
    let p := txMailboxTransmit s.tsr i (s.mb i) m
    (p.fst, { s1 with mb := Function.update s1.mb i p.snd })
  | none => (false, s1)

/-- C5: for every invocation of a constructed TX mailbox's `routine()` with
current error counter at most the saturation threshold: the call returns
true exactly when the captured snapshot has `RQCP == 1` and `TME == 1`; on
true it writes a TSR word with 1 in `RQCP[i]` (and writes nothing
otherwise); when the completed request has `TXOK == 0` the error counter
is incremented only while below `0x20000000`, so it never exceeds that
value. -/
theorem txMailboxRoutine_spec (t : Tsr) (i : Fin 3) (ec : Nat)
    (hec : ec ≤ errorCounterLimit) :
    ((txMailboxRoutine t i ec).fst = true ↔
      ((fixRequestStatus t i).rqcp = 1 ∧ (fixRequestStatus t i).tme = 1))
    ∧ ((txMailboxRoutine t i ec).fst = true →
        (txMailboxRoutine t i ec).snd.snd = some (clearRequestStatus i)
        ∧ tsrRqcp (clearRequestStatus i) i = 1)
    ∧ ((txMailboxRoutine t i ec).fst = false →
        (txMailboxRoutine t i ec).snd.snd = none)
    ∧ ((txMailboxRoutine t i ec).fst = true ∧ (fixRequestStatus t i).txok = 0 →
        (txMailboxRoutine t i ec).snd.fst
          = if ec < errorCounterLimit then ec + 1 else ec)
    ∧ ((txMailboxRoutine t i ec).fst = false ∨ (fixRequestStatus t i).txok ≠ 0 →
        (txMailboxRoutine t i ec).snd.fst = ec)
    ∧ (txMailboxRoutine t i ec).snd.fst ≤ errorCounterLimit := by
  have hclear : tsrRqcp (clearRequestStatus i) i = 1 := by
    fin_cases i <;> rfl
  by_cases h1 : (fixRequestStatus t i).rqcp = 1 <;>
    by_cases h2 : (fixRequestStatus t i).tme = 1 <;>
      by_cases h3 : (fixRequestStatus t i).txok = 0 <;>
        simp only [txMailboxRoutine, isFixedRequestCompleted, h1, h2, h3] <;>
          simp_all <;> split <;> omega

/-- C5 witness: a mailbox-0 snapshot with `RQCP = TME = 1`, `TXOK = 0` and
counter 0 reports completion, emits the `RQCP0` clear mask, and steps the
counter to 1. -/
theorem txMailboxRoutine_spec_witness :
    (0 : Nat) ≤ errorCounterLimit
    ∧ (txMailboxRoutine { tsrZero with rqcp0 := 1, tme0 := 1 } 0 0).fst
        = true :=
  ⟨by decide,
    ((txMailboxRoutine_spec { tsrZero with rqcp0 := 1, tme0 := 1 } 0 0
      (by decide)).1).mpr (by decide)⟩

/-- C6: for every call of a constructed TX mailbox's `transmit` with a
message whose stored fields satisfy the bit-field bounds and whose DLC is
0..8: if `TME[i] == 1` the frame is encoded --- base frame: `stid = id &
0x7FF`, `exid` and `ide` cleared; extended frame: `stid = (id >> 18) &
0x7FF`, `exid = id & 0x3FFFF`, `ide` set; `rtr` mirrors the flag; DLC
verbatim --- and `TXRQ` is raised; if the mailbox is not empty the call
returns false and writes no mailbox register. -/
theorem txMailboxTransmit_encoding (t : Tsr) (i : Fin 3)
    (mb : TxMailboxRegs) (m : Message) (hexid : m.id.exid < 2 ^ 18)
    (hstid : m.id.stid < 2 ^ 11) (hdlc : m.dlc ≤ 8) :
    (txMailboxIsEmpty t i = true →
      (txMailboxTransmit t i mb m).fst = true
      ∧ (m.ide = false →
          (txMailboxTransmit t i mb m).snd.tixr.stid = canId m &&& 0x7FF
          ∧ (txMailboxTransmit t i mb m).snd.tixr.exid = 0
          ∧ (txMailboxTransmit t i mb m).snd.tixr.ide = 0)
      ∧ (m.ide = true →
          (txMailboxTransmit t i mb m).snd.tixr.stid
            = (canId m >>> 18) &&& 0x7FF
          ∧ (txMailboxTransmit t i mb m).snd.tixr.exid = canId m &&& 0x3FFFF
          ∧ (txMailboxTransmit t i mb m).snd.tixr.ide = 1)
      ∧ (txMailboxTransmit t i mb m).snd.tixr.rtr = (if m.rtr then 1 else 0)
      ∧ (txMailboxTransmit t i mb m).snd.dlc = m.dlc
      ∧ (txMailboxTransmit t i mb m).snd.tixr.txrq = 1)
    ∧ (txMailboxIsEmpty t i = false →
        (txMailboxTransmit t i mb m) = (false, mb)) := by
  have hmask11 : ∀ x : Nat, x &&& 0x7FF = x % 2 ^ 11 := by
    intro x
    have h : (0x7FF : Nat) = 2 ^ 11 - 1 := by norm_num
    rw [h, Nat.and_pow_two_sub_one_eq_mod]
  have hmask18 : ∀ x : Nat, x &&& 0x3FFFF = x % 2 ^ 18 := by
    intro x
    have h : (0x3FFFF : Nat) = 2 ^ 18 - 1 := by norm_num
    rw [h, Nat.and_pow_two_sub_one_eq_mod]
  constructor
  · intro hempty
    have hres : txMailboxTransmit t i mb m
        = (true,
           { tixr :=
               { txrq := 1, rtr := if m.rtr then 1 else 0,
                 ide := if m.ide then 1 else 0,
                 exid := if m.ide then m.id.exid % 2 ^ 18 else 0,
                 stid := m.id.stid % 2 ^ 11 },
             dlc := m.dlc % 2 ^ 4, tdl := m.v32lo, tdh := m.v32hi }) := by
      simp [txMailboxTransmit, hempty]
    refine ⟨by rw [hres], ?_, ?_, by rw [hres], ?_, by rw [hres]⟩
    · intro hide
      rw [hres]
      refine ⟨?_, by simp [hide], by simp [hide]⟩
      rw [hmask11]
      simp [canId, hide]
    · intro hide
      rw [hres]
      refine ⟨?_, ?_, by simp [hide]⟩
      · rw [hmask11]
        simp [canId, hide, Nat.shiftRight_eq_div_pow]
        omega
      · rw [hmask18]
        simp [canId, hide]
        omega
    · rw [hres]
      show m.dlc % 2 ^ 4 = m.dlc
      omega
  · intro hfull
    simp [txMailboxTransmit, hfull]

/-- C6 witness: an extended frame with identifier `0x1ABCDEF0` written to
empty mailbox 0 takes `stid = 0x6AF`, `exid = 0x3CDEF0` masked to 18 bits. -/
theorem txMailboxTransmit_encoding_witness :
    txMailboxIsEmpty { tsrZero with tme0 := 1 } 0 = true
    ∧ (txMailboxTransmit { tsrZero with tme0 := 1 } 0
        { tixr := { txrq := 0, rtr := 0, ide := 0, exid := 0, stid := 0 },
          dlc := 0, tdl := 0, tdh := 0 }
        { id := { exid := 0x2CDEF0 % 2 ^ 18, stid := 0x6AF }, rtr := false,
          ide := true, dlc := 4, data := 0xEFBEADDE }).fst = true :=
  ⟨by decide,
    ((txMailboxTransmit_encoding { tsrZero with tme0 := 1 } 0
      { tixr := { txrq := 0, rtr := 0, ide := 0, exid := 0, stid := 0 },
        dlc := 0, tdl := 0, tdh := 0 }
      { id := { exid := 0x2CDEF0 % 2 ^ 18, stid := 0x6AF }, rtr := false,
        ide := true, dlc := 4, data := 0xEFBEADDE }
      (by decide) (by decide) (by decide)).1 (by decide)).1⟩

/-- C4: for every call of `CanResourceTx::transmit` on a constructed
resource, after one permit of the 3-permit `mailboxSem_` is acquired and
the mutex taken: the permit count drops by exactly one and is never given
back; the mailboxes are scanned in order 0, 1, 2 and the first empty one
receives the frame, the call returning that mailbox's `transmit` result;
when no mailbox is empty the call returns false with the mailbox
registers untouched and the acquired permit still consumed. -/
theorem txEngineTransmit_spec (s : TxEngineState) (m : Message)
    (hsem : 0 < s.sem) :
    ((canResourceTxTransmit s m).snd.sem = s.sem - 1
      ∧ (canResourceTxTransmit s m).snd.sem < s.sem)
    ∧ (∀ i : Fin 3, firstEmptyMailbox s.tsr = some i →
        txMailboxIsEmpty s.tsr i = true
        ∧ (∀ j : Fin 3, j < i → txMailboxIsEmpty s.tsr j = false)
        ∧ (canResourceTxTransmit s m).fst
            = (txMailboxTransmit s.tsr i (s.mb i) m).fst)
    ∧ (firstEmptyMailbox s.tsr = none →
        (∀ j : Fin 3, txMailboxIsEmpty s.tsr j = false)
        ∧ (canResourceTxTransmit s m).fst = false
        ∧ (canResourceTxTransmit s m).snd.mb = s.mb) := by
  refine ⟨?_, ?_, ?_⟩
  · cases hcase : firstEmptyMailbox s.tsr <;>
      simp [canResourceTxTransmit, hcase] <;> omega
  · intro i hi
    unfold firstEmptyMailbox at hi
    by_cases h0 : txMailboxIsEmpty s.tsr 0
    · rw [if_pos h0] at hi
      obtain rfl : (0 : Fin 3) = i := Option.some.inj hi
      refine ⟨h0, ?_, ?_⟩
      · intro j hj
        exact absurd hj (by simp)
      · simp [canResourceTxTransmit, firstEmptyMailbox, h0]
    · rw [if_neg h0] at hi
      by_cases h1 : txMailboxIsEmpty s.tsr 1
      · rw [if_pos h1] at hi
        obtain rfl : (1 : Fin 3) = i := Option.some.inj hi
        refine ⟨h1, ?_, ?_⟩
        · intro j hj
          fin_cases j
          · simpa using h0
          · exact absurd hj (by decide)
          · exact absurd hj (by decide)
        · simp [canResourceTxTransmit, firstEmptyMailbox, h0, h1]
      · rw [if_neg h1] at hi
        by_cases h2 : txMailboxIsEmpty s.tsr 2
        · rw [if_pos h2] at hi
          obtain rfl : (2 : Fin 3) = i := Option.some.inj hi
          refine ⟨h2, ?_, ?_⟩
          · intro j hj
            fin_cases j
            · simpa using h0
            · simpa using h1
            · exact absurd hj (by decide)
          · simp [canResourceTxTransmit, firstEmptyMailbox, h0, h1, h2]
        · rw [if_neg h2] at hi
          exact absurd hi (by simp)
  · intro hnone
    have h0 : txMailboxIsEmpty s.tsr 0 = false := by
      by_contra h
      simp only [firstEmptyMailbox, Bool.not_eq_false] at hnone h
      simp [h] at hnone
    have h1 : txMailboxIsEmpty s.tsr 1 = false := by
      by_contra h
      simp only [firstEmptyMailbox, Bool.not_eq_false] at hnone h
      simp [h0, h] at hnone
    have h2 : txMailboxIsEmpty s.tsr 2 = false := by
      by_contra h
      simp only [firstEmptyMailbox, Bool.not_eq_false] at hnone h
      simp [h0, h1, h] at hnone
    refine ⟨?_, ?_, ?_⟩
    · intro j
      fin_cases j <;> assumption
    · simp [canResourceTxTransmit, hnone]
    · simp [canResourceTxTransmit, hnone]

/-- C4 witness: with one permit available and every mailbox busy
(`TME = 0` for all three), the call returns false, consumes the permit
(count 1 to 0), and leaves the mailbox registers untouched. -/
theorem txEngineTransmit_spec_witness :
    (0 : Nat) < 1
    ∧ (canResourceTxTransmit
        { sem := 1, tsr := tsrZero,
          mb := fun _ =>
            { tixr := { txrq := 0, rtr := 0, ide := 0, exid := 0, stid := 0 },
              dlc := 0, tdl := 0, tdh := 0 } }
        { id := { exid := 0, stid := 0x123 }, rtr := false, ide := false,
          dlc := 8, data := 0x8877665544332211 }).fst = false :=
  ⟨by decide,
    ((txEngineTransmit_spec
      { sem := 1, tsr := tsrZero,
        mb := fun _ =>
          { tixr := { txrq := 0, rtr := 0, ide := 0, exid := 0, stid := 0 },
            dlc := 0, tdl := 0, tdh := 0 } }
      { id := { exid := 0, stid := 0x123 }, rtr := false, ide := false,
        dlc := 8, data := 0x8877665544332211 }
      (by decide)).2.2 (by decide)).2.1⟩

/-- `NUMBER_OF_RX_MAILBOXS_IN_FIFO` (`drv.CanResourceRxFifo.hpp`): depth of
the software queue and maximum of the per-FIFO semaphore `sem_(0, 3)`. -/
def numberOfRxMailboxsInFifo : Nat := 3

/-- Modelled from the spec: the bounded container `lib::Fifo<Can::Message, 3>`
is not part of this repository's `src/`.  Per spec sections 3 (RxFifoState)
and 4.3: capacity-3 queue; `add` appends and reports true while space
remains; when full and `locked`, `add` refuses (the arriving frame is
dropped); when full and unlocked, the arriving frame replaces the oldest
entry (the later `receive` calls see the newer frames, spec scenario S5). -/
def fifoAdd (locked : Bool) (q : List Message) (m : Message) :
    List Message × Bool :=
  if q.length < numberOfRxMailboxsInFifo then (q ++ [m], true)
  else if locked then (q, false)
  else (q.tail ++ [m], true)

/-- Modelled from the spec: the kernel counting semaphore `sys::Semaphore`
is an external OS primitive.  `releaseFromInterrupt` adds one permit while
below the maximum and reports whether a permit was released. -/
def semReleaseFromInterrupt (maxPermits s : Nat) : Nat × Bool :=
  if s < maxPermits then (s + 1, true) else (s, false)

/-- The per-FIFO software state of `CanResourceRxFifo`: the `rflm`-derived
locking flag, the software queue (oldest first) and the permit count of
`sem_` (0..3). -/
structure RxFifoState where
  locked : Bool
  queue : List Message
  sem : Nat

/-- The hardware registers the RX-FIFO ISR reads: `RFxR.FMPx` and the RX
mailbox registers `RIxR` (stid/exid/rtr/ide), `RDTxR.DLC`, `RDLxR`, `RDHxR`. -/
structure RxHw where
  fmpx : Nat
  stid : Nat
  exid : Nat
  rtr : Nat
  ide : Nat
  dlc : Nat
  rdl : Nat
  rdh : Nat

/-- The frame decode of `CanResourceRxFifo::start`
(`drv.CanResourceRxFifo.cpp`): field-for-field copy of RIxR/RDTxR, with
the payload words `RDLxR` and `RDHxR` filling `data.v32[0]` and
`data.v32[1]` of the little-endian payload union. -/
def rxDecode (h : RxHw) : Message :=
  { id := { exid := h.exid, stid := h.stid }
    rtr := h.rtr == 1
    ide := h.ide == 1
    dlc := h.dlc
    data := h.rdl + 2 ^ 32 * h.rdh }

/-- `CanResourceRxFifo::start` (`drv.CanResourceRxFifo.cpp`), the RX-FIFO
ISR body: when `RFxR.FMPx > 0`, decode the pending frame, compute
`isAddedToLast = !fifo_.isLocked() && fifo_.isFull()`, `add` it to the
software queue, release one permit only when the add stored the frame and
it did not replace an entry of a full unlocked queue, and finally write
`RFOMx = 1` (the second component reports that write). -/
def rxFifoStart (h : RxHw) (s : RxFifoState) : RxFifoState × Bool :=
  if 0 < h.fmpx then
    let m := rxDecode h
    let isAddedToLast :=
      !s.locked && decide (numberOfRxMailboxsInFifo ≤ s.queue.length)
    let p := fifoAdd s.locked s.queue m
    let sem' :=
      if p.snd && !isAddedToLast then
        (semReleaseFromInterrupt numberOfRxMailboxsInFifo s.sem).fst
      else s.sem
    ({ s with queue := p.fst, sem := sem' }, true)
  else (s, false)

/-- `CanResourceRxFifo::receive` (`drv.CanResourceRxFifo.cpp`) on a
constructed resource: the call blocks in `sem_.acquire()` until a permit
is available (`none` models the still-blocked call); with a permit it
pops the oldest queued frame into `*message` (lib::Fifo `peek`/`remove`
are modelled from the spec: first-in-first-out delivery), or returns
false on a spurious wake with an empty queue. -/
def rxFifoReceive (s : RxFifoState) :
    Option (Bool × RxFifoState × Option Message) :=
  if 0 < s.sem then
    let s1 : RxFifoState := { s with sem := s.sem - 1 }
    match s1.queue with
    | [] => some (false, s1, none)
    | m :: rest => some (true, { s1 with queue := rest }, some m)
  else none

/-- The RxEngine state: the two FIFO resources of `CanResourceRx`. -/
structure RxEngineState where
  fifo0 : RxFifoState
  fifo1 : RxFifoState

/-- `CanResourceRx::receive` (`drv.CanResourceRx.cpp`): dispatches on the
`Can::RxFifo` argument (`RXFIFO_0 = 0`, `RXFIFO_1 = 1`, modelled as the
underlying integer); any other value falls to the `default` case which
returns false at once, touching neither semaphore nor registers nor
`*message`. -/
def canResourceRxReceive (s : RxEngineState) (fifo : Nat) :
    Option (Bool × RxEngineState × Option Message) :=
  if fifo = 0 then
    match rxFifoReceive s.fifo0 with
    | none => none
    | some (b, f, msg) => some (b, { s with fifo0 := f }, msg)
  else if fifo = 1 then
    match rxFifoReceive s.fifo1 with
    | none => none
    | some (b, f, msg) => some (b, { s with fifo1 := f }, msg)
  else some (false, s, none)

/-- `Can::RxFilter::NUMBER_OF_FILTER_GROUPS` (`drv.Can.hpp`). -/
def numberOfFilterGroups : Nat := 14

/-- `Can::RxFilter` (`drv.Can.hpp`): `fifo`, `mode` and `scale` carry the
enum values (`FIFO_0 = 0`/`FIFO_1 = 1`, `MODE_IDMASK = 0`/`MODE_IDLIST = 1`,
`SCALE_16BIT = 0`/`SCALE_32BIT = 1`); the `Filters` union is consumed by
`setReceiveFilter` as the two raw 32-bit words `reg.firx[0]` and
`reg.firx[1]`, modelled here directly as `w0` and `w1`. -/
structure RxFilter where
  fifo : Nat
  index : Nat
  mode : Nat
  scale : Nat
  w0 : Nat
  w1 : Nat

/-- The filter-bank registers of the controller, at bit granularity for
the one-bit-per-bank registers (`bits idx` is bit `idx` of the word). -/
structure FilterRegs where
  finit : Nat
  fm1r : Nat → Bool
  fs1r : Nat → Bool
  ffa1r : Nat → Bool
  fa1r : Nat → Bool
  banks : Nat → Nat × Nat

/-- One committed write of the filter-programming transaction. -/
inductive FilterWrite
  | fmr (finit : Nat)
  | fa1r (bits : Nat → Bool)
  | fm1r (bits : Nat → Bool)
  | fs1r (bits : Nat → Bool)
  | ffa1r (bits : Nat → Bool)
  | bankLow (index : Nat) (word : Nat)
  | bankHigh (index : Nat) (word : Nat)

/-- `CanResourceRx::setReceiveFilter` (`drv.CanResourceRx.cpp`) on a
constructed resource: rejects `index >= NUMBER_OF_FILTER_GROUPS` without
touching a register; otherwise performs, under the filter mutex, the
write sequence `FINIT = 1`; `FA1R` bank bit cleared; `FM1R` per mode;
`FS1R` per scale; `FFA1R` per fifo; the bank's two 32-bit words;
`FA1R` bank bit set; `FINIT = 0`, and returns true.  The result carries
the final register state and the ordered list of committed writes. -/
def setReceiveFilter (s : FilterRegs) (f : RxFilter) :
    Bool × FilterRegs × List FilterWrite :=
  if f.index < numberOfFilterGroups then
    let fa1rCleared := Function.update s.fa1r f.index false
    let fm1rNew :=
      if f.mode = 0 then Function.update s.fm1r f.index false
      else if f.mode = 1 then Function.update s.fm1r f.index true
      else s.fm1r
    let fs1rNew :=
      if f.scale = 0 then Function.update s.fs1r f.index false
      else if f.scale = 1 then Function.update s.fs1r f.index true
      else s.fs1r
    let ffa1rNew :=
      if f.fifo = 0 then Function.update s.ffa1r f.index false
      else if f.fifo = 1 then Function.update s.ffa1r f.index true
      else s.ffa1r
    let fa1rSet := Function.update fa1rCleared f.index true
    (true,
      { finit := 0, fm1r := fm1rNew, fs1r := fs1rNew, ffa1r := ffa1rNew,
        fa1r := fa1rSet,
        banks := Function.update s.banks f.index (f.w0, f.w1) },
      [FilterWrite.fmr 1, FilterWrite.fa1r fa1rCleared,
       FilterWrite.fm1r fm1rNew, FilterWrite.fs1r fs1rNew,
       FilterWrite.ffa1r ffa1rNew, FilterWrite.bankLow f.index f.w0,
       FilterWrite.bankHigh f.index f.w1, FilterWrite.fa1r fa1rSet,
       FilterWrite.fmr 0])
  else (false, s, [])

/-- C3: for every RX-FIFO ISR service with a pending hardware frame
(`FMPx > 0`), under the queue/permit invariant: full queue and locked
FIFO --- the frame is dropped at queue level and no permit is released;
full queue and unlocked FIFO --- the frame replaces the oldest queued
entry and no additional permit is released; otherwise the frame is
enqueued and exactly one permit is released; in every case the hardware
slot is then released by writing `RFOMx = 1`. -/
theorem rxFifoStart_spec (h : RxHw) (s : RxFifoState) (hfmp : 0 < h.fmpx)
    (hinv : s.sem ≤ s.queue.length)
    (hcap : s.queue.length ≤ numberOfRxMailboxsInFifo) :
    (s.queue.length = numberOfRxMailboxsInFifo → s.locked = true →
      (rxFifoStart h s).fst.queue = s.queue
      ∧ (rxFifoStart h s).fst.sem = s.sem)
    ∧ (s.queue.length = numberOfRxMailboxsInFifo → s.locked = false →
      (rxFifoStart h s).fst.queue = s.queue.tail ++ [rxDecode h]
      ∧ (rxFifoStart h s).fst.sem = s.sem)
    ∧ (s.queue.length < numberOfRxMailboxsInFifo →
      (rxFifoStart h s).fst.queue = s.queue ++ [rxDecode h]
      ∧ (rxFifoStart h s).fst.sem = s.sem + 1)
    ∧ (rxFifoStart h s).snd = true := by
  refine ⟨?_, ?_, ?_, ?_⟩
  · intro hlen hlock
    have hnlt : ¬ s.queue.length < numberOfRxMailboxsInFifo := by omega
    simp [rxFifoStart, hfmp, fifoAdd, hlock, hnlt]
  · intro hlen hlock
    have hnlt : ¬ s.queue.length < numberOfRxMailboxsInFifo := by omega
    have hfull : numberOfRxMailboxsInFifo ≤ s.queue.length := by omega
    simp [rxFifoStart, hfmp, fifoAdd, hlock, hnlt, hfull]
  · intro hlen
    have hsem : s.sem < numberOfRxMailboxsInFifo := by omega
    have hnotfull : ¬ numberOfRxMailboxsInFifo ≤ s.queue.length := by omega
    simp [rxFifoStart, hfmp, fifoAdd, hlen, semReleaseFromInterrupt, hsem,
      hnotfull]
  · simp [rxFifoStart, hfmp]

/-- A concrete RX hardware snapshot: one pending base frame. -/
def rxHwEx : RxHw :=
  { fmpx := 1, stid := 0x123, exid := 0, rtr := 0, ide := 0, dlc := 8,
    rdl := 0x44332211, rdh := 0x88776655 }

/-- A concrete unlocked FIFO state with an empty queue and no permits. -/
def rxStateEx : RxFifoState :=
  { locked := false, queue := [], sem := 0 }

/-- C3 witness: servicing one pending frame on an empty unlocked FIFO
enqueues it, releases exactly one permit and releases the hardware slot. -/
theorem rxFifoStart_spec_witness :
    (rxFifoStart rxHwEx rxStateEx).fst.queue
        = rxStateEx.queue ++ [rxDecode rxHwEx]
    ∧ (rxFifoStart rxHwEx rxStateEx).fst.sem = rxStateEx.sem + 1
    ∧ (rxFifoStart rxHwEx rxStateEx).snd = true :=
  ⟨((rxFifoStart_spec rxHwEx rxStateEx (by decide) (by decide)
      (by decide)).2.2.1 (by decide)).1,
   ((rxFifoStart_spec rxHwEx rxStateEx (by decide) (by decide)
      (by decide)).2.2.1 (by decide)).2,
   (rxFifoStart_spec rxHwEx rxStateEx (by decide) (by decide)
      (by decide)).2.2.2⟩

/-- C10: for every call of `CanResourceRx::receive` with a `fifo` argument
that is neither `RXFIFO_0` nor `RXFIFO_1`, the call returns false
immediately (it does not block on any semaphore), leaves the FIFO states
untouched and writes no message. -/
theorem rxReceive_invalid_fifo (s : RxEngineState) (fifo : Nat)
    (h0 : fifo ≠ 0) (h1 : fifo ≠ 1) :
    canResourceRxReceive s fifo = some (false, s, none) := by
  simp [canResourceRxReceive, h0, h1]

/-- A concrete RxEngine state for evaluations. -/
def rxEngineEx : RxEngineState :=
  { fifo0 := rxStateEx, fifo1 := { locked := true, queue := [], sem := 0 } }

/-- C10 witness: `fifo = 2` returns false at once with nothing changed. -/
theorem rxReceive_invalid_fifo_witness :
    canResourceRxReceive rxEngineEx 2 = some (false, rxEngineEx, none) :=
  rxReceive_invalid_fifo rxEngineEx 2 (by decide) (by decide)

/-- C7: for every filter `f`, `setReceiveFilter` on a constructed resource
returns false and writes no filter register when `f.index >= 14`;
otherwise it returns true after the bracketed transaction: the first
committed write sets `FMR.FINIT = 1`, the second clears the bank's `FA1R`
bit, the bank's two 32-bit words are written (positions 5 and 6) before
the `FA1R` bit is set again (position 7), and the last write clears
`FMR.FINIT`. -/
theorem setReceiveFilter_transaction (s : FilterRegs) (f : RxFilter) :
    (numberOfFilterGroups ≤ f.index → setReceiveFilter s f = (false, s, []))
    ∧ (f.index < numberOfFilterGroups →
        (setReceiveFilter s f).fst = true
        ∧ (setReceiveFilter s f).snd.snd.length = 9
        ∧ (setReceiveFilter s f).snd.snd.head? = some (FilterWrite.fmr 1)
        ∧ (setReceiveFilter s f).snd.snd.getLast? = some (FilterWrite.fmr 0)
        ∧ (setReceiveFilter s f).snd.snd.get? 1
            = some (FilterWrite.fa1r (Function.update s.fa1r f.index false))
        ∧ Function.update s.fa1r f.index false f.index = false
        ∧ (setReceiveFilter s f).snd.snd.get? 5
            = some (FilterWrite.bankLow f.index f.w0)
        ∧ (setReceiveFilter s f).snd.snd.get? 6
            = some (FilterWrite.bankHigh f.index f.w1)
        ∧ (setReceiveFilter s f).snd.snd.get? 7
            = some (FilterWrite.fa1r
                (Function.update (Function.update s.fa1r f.index false)
                  f.index true))
        ∧ Function.update (Function.update s.fa1r f.index false) f.index
            true f.index = true
        ∧ (setReceiveFilter s f).snd.fst.fa1r f.index = true
        ∧ (setReceiveFilter s f).snd.fst.finit = 0) := by
  constructor
  · intro hge
    have hnlt : ¬ f.index < numberOfFilterGroups := by omega
    simp [setReceiveFilter, hnlt]
  · intro hlt
    simp [setReceiveFilter, hlt, Function.update_same]

/-- A concrete filter-register state for evaluations. -/
def filterRegsEx : FilterRegs :=
  { finit := 0, fm1r := fun _ => false, fs1r := fun _ => false,
    ffa1r := fun _ => false, fa1r := fun _ => false,
    banks := fun _ => (0, 0) }

/-- A concrete pass-all 32-bit mask filter on bank 0 for FIFO 0. -/
def filterEx : RxFilter :=
  { fifo := 0, index := 0, mode := 0, scale := 1, w0 := 0, w1 := 0 }

/-- C7 witness: the transaction for the concrete bank-0 filter succeeds
and ends with the bank active. -/
theorem setReceiveFilter_transaction_witness :
    (setReceiveFilter filterRegsEx filterEx).fst = true
    ∧ (setReceiveFilter filterRegsEx filterEx).snd.fst.fa1r
        filterEx.index = true :=
  ⟨((setReceiveFilter_transaction filterRegsEx filterEx).2 (by decide)).1,
   ((setReceiveFilter_transaction filterRegsEx
      filterEx).2 (by decide)).2.2.2.2.2.2.2.2.2.2.1⟩

end CanDrv
